import Mathlib

/-!
# SM-2 spaced-repetition scheduler: verification of `vocab_trainer.py`

Shallow embedding of the scheduling core of `vocab_trainer.py`: the SM-2
update `calculate_sm2`, the due-time computation `get_next_review`, the
due check `is_due_for_review`, and the two-phase (learning-steps /
adaptive SM-2) rating transition `submit_rating`.

Modelling conventions:
* Python `float` is modelled as the exact rationals `ℚ`; Python `int`
  as `ℤ`.
* Timestamps are seconds on a rational timeline.  `datetime.now()` is a
  rational `now`; a stored `next_review` value is a whole number of
  seconds because `get_next_review` formats the computed datetime with
  `strftime("%Y-%m-%d %H:%M:%S")`, which truncates (floors) fractional
  seconds away.
* Python list indexing and the `quality_map[rating]` dictionary lookup
  raise `IndexError`/`KeyError` on a miss; both are modelled with
  `Option`, `none` standing for the raised exception.
* The database row passed through `submit_rating` is modelled as the
  record `CardState` of its scheduling fields; SQL `UPDATE` statements
  become record updates.
-/

/-- `LEARNING_STEPS = [1, 10, 1440]`: learning-step durations in minutes. -/
def LEARNING_STEPS : List ℤ := [1, 10, 1440]

/-- Scheduling fields of one `vocab` row: `learning_step`, `repetitions`,
`interval` (days), `easiness_factor`, and the stored `next_review`
timestamp (whole seconds). -/
structure CardState where
  learning_step : ℤ
  repetitions : ℤ
  interval : ℤ
  easiness_factor : ℚ
  next_review : ℤ
deriving DecidableEq, Repr

/-- The new easiness factor of `calculate_sm2`:
`new_ef = ef + (0.1 - (5 - quality) * (0.08 + (5 - quality) * 0.02))`
followed by the clamp `new_ef = max(1.3, new_ef)`. -/
def sm2_new_ef (ef : ℚ) (quality : ℤ) : ℚ :=
  max (13/10)
    (ef + (1/10 - ((5 - quality : ℤ) : ℚ) * (2/25 + ((5 - quality : ℤ) : ℚ) * (1/50))))

/-- `calculate_sm2(repetitions, interval, ef, quality)` returning
`(new_repetitions, new_interval, new_ef)`. -/
def calculate_sm2 (repetitions interval : ℤ) (ef : ℚ) (quality : ℤ) : ℤ × ℤ × ℚ :=
  let new_ef := sm2_new_ef ef quality
  if quality < 3 then
    (0, 1, new_ef)
  else
    let new_repetitions := repetitions + 1
    if new_repetitions = 1 then
      (new_repetitions, 1, new_ef)
    else if new_repetitions = 2 then
      (new_repetitions, 6, new_ef)
    else
      (new_repetitions, ⌈(interval : ℚ) * new_ef⌉, new_ef)

/-- `get_next_review(minutes, days)`: the stored next-review timestamp,
`now + (minutes*60 + days*86400)/TIME_SCALE` seconds, truncated to whole
seconds by the `strftime` formatting. -/
def get_next_review (now : ℚ) (timeScale : ℕ) (minutes days : ℤ) : ℤ :=
  ⌊now + ((minutes * 60 + days * 86400 : ℤ) : ℚ) / (timeScale : ℚ)⌋

/-- `is_due_for_review(next_review)`: `datetime.now() >= next_dt`. -/
def is_due_for_review (next_review : ℤ) (now : ℚ) : Bool :=
  decide ((next_review : ℚ) ≤ now)

/-- `quality_map = {1: 0, 2: 3, 3: 5}`; `none` models the `KeyError`
raised for a rating outside the map. -/
def quality_map (rating : ℤ) : Option ℤ :=
  if rating = 1 then some 0
  else if rating = 2 then some 3
  else if rating = 3 then some 5
  else none

/-- `submit_rating(conn, word_id, rating)` restricted to its scheduling
action on the selected row `s` at clock time `now`.  `none` models a
raised exception (list `IndexError` or `quality_map` `KeyError`). -/
def submit_rating (s : CardState) (rating : ℤ) (now : ℚ) (timeScale : ℕ) :
    Option CardState :=
  if 0 < s.learning_step then
    -- Card is in learning phase
    if rating = 1 then  -- Forgot: reset to step 1
      match LEARNING_STEPS.get? 0 with
      | none => none
      | some m =>
        some { s with learning_step := 1,
                      next_review := get_next_review now timeScale m 0 }
    else if rating = 2 then  -- Hard: repeat current step
      match LEARNING_STEPS.get? (s.learning_step - 1).toNat with
      | none => none
      | some m =>
        some { s with learning_step := s.learning_step,
                      next_review := get_next_review now timeScale m 0 }
    else  -- Easy: advance to next step or graduate
      if (LEARNING_STEPS.length : ℤ) ≤ s.learning_step then
        some { s with learning_step := 0, repetitions := 1, interval := 1,
                      next_review := get_next_review now timeScale 0 1 }
      else
        match LEARNING_STEPS.get? (s.learning_step + 1 - 1).toNat with
        | none => none
        | some m =>
          some { s with learning_step := s.learning_step + 1,
                        next_review := get_next_review now timeScale m 0 }
  else
    -- Card is in SM-2 review phase
    match quality_map rating with
    | none => none
    | some quality =>
      let r := calculate_sm2 s.repetitions s.interval s.easiness_factor quality
      if quality < 3 then
        match LEARNING_STEPS.get? 0 with
        | none => none
        | some m =>
          some { s with learning_step := 1, repetitions := 0, interval := 1,
                        easiness_factor := r.2.2,
                        next_review := get_next_review now timeScale m 0 }
      else
        some { s with repetitions := r.1, interval := r.2.1,
                      easiness_factor := r.2.2,
                      next_review := get_next_review now timeScale 0 r.2.1 }

/-- In every branch, the easiness component returned by `calculate_sm2`
is the clamped `sm2_new_ef`. -/
lemma calculate_sm2_ef (r i : ℤ) (e : ℚ) (q : ℤ) :
    (calculate_sm2 r i e q).2.2 = sm2_new_ef e q := by
  simp only [calculate_sm2]
  split
  · rfl
  · split
    · rfl
    · split <;> rfl

/-- The clamp in `sm2_new_ef` keeps the easiness at or above `1.3`. -/
lemma sm2_new_ef_ge (e : ℚ) (q : ℤ) : 13/10 ≤ sm2_new_ef e q :=
  le_max_left _ _

/-- `calculate_sm2` on a passing quality (`3 <= q`): repetitions are
incremented and the interval follows the 1 / 6 / `ceil(I * EF')` rule. -/
lemma calculate_sm2_q_ge (r i : ℤ) (e : ℚ) (q : ℤ) (h : 3 ≤ q) :
    calculate_sm2 r i e q =
      (r + 1,
       if r + 1 = 1 then 1 else if r + 1 = 2 then 6
       else ⌈(i : ℚ) * sm2_new_ef e q⌉,
       sm2_new_ef e q) := by
  simp only [calculate_sm2]
  rw [if_neg (by omega)]
  by_cases h1 : r + 1 = 1
  · simp [h1]
  · by_cases h2 : r + 1 = 2 <;> simp [h1, h2]

/-- Every learning-step duration in `LEARNING_STEPS` is at least one
minute. -/
lemma LEARNING_STEPS_pos (i : ℕ) (m : ℤ) (h : LEARNING_STEPS.get? i = some m) :
    1 ≤ m := by
  rcases i with _ | _ | _ | i <;> simp [LEARNING_STEPS] at h <;> omega

/-- The interval returned by `calculate_sm2` is at least one day when
the incoming interval is. -/
lemma calculate_sm2_interval_pos (r i : ℤ) (e : ℚ) (q : ℤ) (hi : 1 ≤ i) :
    1 ≤ (calculate_sm2 r i e q).2.1 := by
  simp only [calculate_sm2]
  split
  · norm_num
  · split
    · norm_num
    · split
      · norm_num
      · have he := sm2_new_ef_ge e q
        have hprod : (0 : ℚ) < (i : ℚ) * sm2_new_ef e q := by
          have hi' : (1 : ℚ) ≤ (i : ℚ) := by exact_mod_cast hi
          nlinarith
        have := Int.ceil_pos.mpr hprod
        show 1 ≤ ⌈(i : ℚ) * sm2_new_ef e q⌉
        omega

/-- With time scale 1 (real mode), `get_next_review` is `⌊now⌋` plus the
whole number of seconds in the duration. -/
lemma get_next_review_scale_one (now : ℚ) (m d : ℤ) :
    get_next_review now 1 m d = ⌊now⌋ + (m * 60 + d * 86400) := by
  unfold get_next_review
  rw [Nat.cast_one, div_one, Int.floor_add_int]

/-- In real mode a positive duration lands the stored timestamp strictly
after `now`. -/
lemma get_next_review_scale_one_lt (now : ℚ) (m d : ℤ)
    (h : 1 ≤ m * 60 + d * 86400) :
    now < (get_next_review now 1 m d : ℚ) := by
  rw [get_next_review_scale_one]
  have h1 : now < ⌊now⌋ + 1 := Int.lt_floor_add_one now
  have h2 : (1 : ℚ) ≤ ((m * 60 + d * 86400 : ℤ) : ℚ) := by exact_mod_cast h
  push_cast
  push_cast at h2
  linarith

/-- A learning-step index that is in range always yields a duration. -/
lemma LEARNING_STEPS_get?_isSome (i : ℕ) (hi : i < 3) :
    ∃ m : ℤ, LEARNING_STEPS.get? i = some m := by
  interval_cases i <;> exact ⟨_, rfl⟩

/-- Learning phase, `Forgot` (rating 1): reset to step 1, next review
after `LEARNING_STEPS[0]` = 1 minute. -/
lemma submit_rating_eq_learning_forgot (s : CardState) (now : ℚ) (ts : ℕ)
    (hstep : 0 < s.learning_step) :
    submit_rating s 1 now ts =
      some { s with learning_step := 1,
                    next_review := get_next_review now ts 1 0 } := by
  unfold submit_rating
  rw [if_pos hstep, if_pos rfl]
  rfl

/-- Learning phase, `Hard` (rating 2) with a valid step index: repeat
the current step. -/
lemma submit_rating_eq_learning_hard (s : CardState) (now : ℚ) (ts : ℕ) (m : ℤ)
    (hstep : 0 < s.learning_step)
    (hm : LEARNING_STEPS.get? (s.learning_step - 1).toNat = some m) :
    submit_rating s 2 now ts =
      some { s with learning_step := s.learning_step,
                    next_review := get_next_review now ts m 0 } := by
  unfold submit_rating
  rw [if_pos hstep, if_neg (by decide), if_pos rfl, hm]

/-- Learning phase, `Hard` with an out-of-range step: the list indexing
raises (`none`). -/
lemma submit_rating_eq_learning_hard_none (s : CardState) (now : ℚ) (ts : ℕ)
    (hstep : 0 < s.learning_step)
    (hm : LEARNING_STEPS.get? (s.learning_step - 1).toNat = none) :
    submit_rating s 2 now ts = none := by
  unfold submit_rating
  rw [if_pos hstep, if_neg (by decide), if_pos rfl, hm]

/-- Learning phase, any rating other than 1 or 2, step at or past the
last learning step: graduate to the adaptive phase. -/
lemma submit_rating_eq_learning_graduate (s : CardState) (rating : ℤ) (now : ℚ)
    (ts : ℕ) (hstep : 0 < s.learning_step) (h1 : rating ≠ 1) (h2 : rating ≠ 2)
    (hlen : (LEARNING_STEPS.length : ℤ) ≤ s.learning_step) :
    submit_rating s rating now ts =
      some { s with learning_step := 0, repetitions := 1, interval := 1,
                    next_review := get_next_review now ts 0 1 } := by
  unfold submit_rating
  rw [if_pos hstep, if_neg h1, if_neg h2, if_pos hlen]

/-- Learning phase, any rating other than 1 or 2, step strictly before
the last learning step: advance one step. -/
lemma submit_rating_eq_learning_advance (s : CardState) (rating : ℤ) (now : ℚ)
    (ts : ℕ) (m : ℤ) (hstep : 0 < s.learning_step) (h1 : rating ≠ 1)
    (h2 : rating ≠ 2) (hlen : ¬ (LEARNING_STEPS.length : ℤ) ≤ s.learning_step)
    (hm : LEARNING_STEPS.get? (s.learning_step + 1 - 1).toNat = some m) :
    submit_rating s rating now ts =
      some { s with learning_step := s.learning_step + 1,
                    next_review := get_next_review now ts m 0 } := by
  unfold submit_rating
  rw [if_pos hstep, if_neg h1, if_neg h2, if_neg hlen, hm]

/-- Adaptive phase, rating outside the `quality_map` keys: the lookup
raises (`none`). -/
lemma submit_rating_eq_adaptive_none (s : CardState) (rating : ℤ) (now : ℚ)
    (ts : ℕ) (hstep : ¬ 0 < s.learning_step) (hq : quality_map rating = none) :
    submit_rating s rating now ts = none := by
  unfold submit_rating
  rw [if_neg hstep, hq]

/-- Adaptive phase, quality below 3: lapse back to learning step 1 with
the quality-adjusted easiness. -/
lemma submit_rating_eq_adaptive_lapse (s : CardState) (rating q : ℤ) (now : ℚ)
    (ts : ℕ) (hstep : ¬ 0 < s.learning_step) (hq : quality_map rating = some q)
    (h3 : q < 3) :
    submit_rating s rating now ts =
      some { s with learning_step := 1, repetitions := 0, interval := 1,
                    easiness_factor := sm2_new_ef s.easiness_factor q,
                    next_review := get_next_review now ts 1 0 } := by
  unfold submit_rating
  rw [if_neg hstep, hq]
  dsimp only
  rw [if_pos h3, calculate_sm2_ef]
  rfl

/-- Adaptive phase, quality at least 3: the `calculate_sm2` result is
written back and the next review is `new_interval` days away. -/
lemma submit_rating_eq_adaptive_success (s : CardState) (rating q : ℤ) (now : ℚ)
    (ts : ℕ) (hstep : ¬ 0 < s.learning_step) (hq : quality_map rating = some q)
    (h3 : ¬ q < 3) :
    submit_rating s rating now ts =
      some { s with
             repetitions := (calculate_sm2 s.repetitions s.interval s.easiness_factor q).1,
             interval := (calculate_sm2 s.repetitions s.interval s.easiness_factor q).2.1,
             easiness_factor := (calculate_sm2 s.repetitions s.interval s.easiness_factor q).2.2,
             next_review := get_next_review now ts 0
               ((calculate_sm2 s.repetitions s.interval s.easiness_factor q).2.1) } := by
  unfold submit_rating
  rw [if_neg hstep, hq]
  dsimp only
  rw [if_neg h3]

/-- C9: on the adaptive input `repetitions = 5`, `intervalDays = 20`,
`easiness = 2.0` with a `Hard` rating (quality 3), `calculate_sm2`
returns easiness exactly `1.86 = 93/50`, repetitions `6` and interval
`ceil(20 * 1.86) = 38`. -/
theorem calculate_sm2_scenario_D : calculate_sm2 5 20 2 3 = (6, 38, 93/50) := by
  simp [calculate_sm2, sm2_new_ef]
  norm_num
  rw [Int.ceil_eq_iff]
  norm_num

/-- C8: `is_due_for_review` returns `true` exactly when `now >= t`, and
the boundary case `now == t` counts as due. -/
theorem is_due_iff (t : ℤ) (now : ℚ) :
    (is_due_for_review t now = true ↔ (t : ℚ) ≤ now) ∧
    is_due_for_review t (t : ℚ) = true := by
  constructor
  · simp [is_due_for_review]
  · simp [is_due_for_review]

/-- C1: in the adaptive phase (`learning_step == 0`), a rating whose
quality is at least 3 increments `repetitions`, sets the new interval to
1 if the new repetition count is 1, to 6 if it is 2, and to
`ceil(intervalDays * newEasiness)` otherwise, stores the new easiness,
and schedules the next review `newInterval` days from `now`. -/
theorem submit_rating_adaptive_success (s : CardState) (rating : ℤ) (now : ℚ)
    (ts : ℕ) (h0 : s.learning_step = 0) (hr : rating = 2 ∨ rating = 3) :
    ∃ q : ℤ, quality_map rating = some q ∧ 3 ≤ q ∧
      submit_rating s rating now ts = some
        { s with
          repetitions := s.repetitions + 1,
          interval :=
            if s.repetitions + 1 = 1 then 1
            else if s.repetitions + 1 = 2 then 6
            else ⌈(s.interval : ℚ) * sm2_new_ef s.easiness_factor q⌉,
          easiness_factor := sm2_new_ef s.easiness_factor q,
          next_review := get_next_review now ts 0
            (if s.repetitions + 1 = 1 then 1
             else if s.repetitions + 1 = 2 then 6
             else ⌈(s.interval : ℚ) * sm2_new_ef s.easiness_factor q⌉) } := by
  have hstep : ¬ 0 < s.learning_step := by omega
  rcases hr with rfl | rfl
  · refine ⟨3, rfl, le_refl _, ?_⟩
    rw [submit_rating_eq_adaptive_success s 2 3 now ts hstep rfl (by omega),
        calculate_sm2_q_ge _ _ _ _ (by omega)]
  · refine ⟨5, rfl, by omega, ?_⟩
    rw [submit_rating_eq_adaptive_success s 3 5 now ts hstep rfl (by omega),
        calculate_sm2_q_ge _ _ _ _ (by omega)]

/-- Witness for C1: the adaptive item `(reps 0, interval 1, ef 2.5)`
rated `Easy` becomes `(reps 1, interval 1, ef 2.6)` due one day out. -/
theorem submit_rating_adaptive_success_witness :
    submit_rating ⟨0, 0, 1, 5/2, 0⟩ 3 0 1 = some ⟨0, 1, 1, 13/5, 86400⟩ := by
  obtain ⟨q, hq, h3, h⟩ :=
    submit_rating_adaptive_success ⟨0, 0, 1, 5/2, 0⟩ 3 0 1 rfl (Or.inr rfl)
  have hq5 : q = 5 := by simpa [quality_map] using hq.symm
  subst hq5
  rw [h]
  norm_num [sm2_new_ef, get_next_review]

/-- C2: `submit_rating` never drives the easiness factor below 1.3 when
it starts at or above 1.3; in the adaptive phase the `max(1.3, ·)` clamp
applies and in the learning phase the easiness is untouched. -/
theorem submit_rating_easiness_floor (s : CardState) (rating : ℤ) (now : ℚ)
    (ts : ℕ) (s' : CardState) (hef : 13/10 ≤ s.easiness_factor)
    (h : submit_rating s rating now ts = some s') :
    13/10 ≤ s'.easiness_factor := by
  by_cases hstep : 0 < s.learning_step
  · by_cases hr1 : rating = 1
    · subst hr1
      rw [submit_rating_eq_learning_forgot s now ts hstep] at h
      obtain rfl := Option.some.inj h
      exact hef
    · by_cases hr2 : rating = 2
      · subst hr2
        cases hm : LEARNING_STEPS.get? (s.learning_step - 1).toNat with
        | none =>
          rw [submit_rating_eq_learning_hard_none s now ts hstep hm] at h
          cases h
        | some m =>
          rw [submit_rating_eq_learning_hard s now ts m hstep hm] at h
          obtain rfl := Option.some.inj h
          exact hef
      · by_cases hlen : (LEARNING_STEPS.length : ℤ) ≤ s.learning_step
        · rw [submit_rating_eq_learning_graduate s rating now ts hstep hr1 hr2 hlen] at h
          obtain rfl := Option.some.inj h
          exact hef
        · cases hm : LEARNING_STEPS.get? (s.learning_step + 1 - 1).toNat with
          | none =>
            unfold submit_rating at h
            rw [if_pos hstep, if_neg hr1, if_neg hr2, if_neg hlen, hm] at h
            cases h
          | some m =>
            rw [submit_rating_eq_learning_advance s rating now ts m hstep hr1 hr2 hlen hm] at h
            obtain rfl := Option.some.inj h
            exact hef
  · cases hq : quality_map rating with
    | none =>
      rw [submit_rating_eq_adaptive_none s rating now ts hstep hq] at h
      cases h
    | some q =>
      by_cases h3 : q < 3
      · rw [submit_rating_eq_adaptive_lapse s rating q now ts hstep hq h3] at h
        obtain rfl := Option.some.inj h
        exact sm2_new_ef_ge _ _
      · rw [submit_rating_eq_adaptive_success s rating q now ts hstep hq h3] at h
        obtain rfl := Option.some.inj h
        show 13/10 ≤ (calculate_sm2 s.repetitions s.interval s.easiness_factor q).2.2
        rw [calculate_sm2_ef]
        exact sm2_new_ef_ge _ _

/-- Witness for C2: a `Forgot` on an adaptive item already at the floor
`1.3` leaves the easiness exactly at `1.3`. -/
theorem submit_rating_easiness_floor_witness :
    (13 : ℚ)/10 ≤ ((⟨1, 0, 1, 13/10, 60⟩ : CardState)).easiness_factor :=
  submit_rating_easiness_floor ⟨0, 0, 1, 13/10, 0⟩ 1 0 1 ⟨1, 0, 1, 13/10, 60⟩
    (by norm_num)
    (by simp [submit_rating, quality_map, calculate_sm2, sm2_new_ef, get_next_review,
              LEARNING_STEPS]
        norm_num)

/-- C3: an item at the last learning step (`learning_step == N`, the
length of `LEARNING_STEPS`) receiving `Easy` graduates: the result has
`learning_step = 0`, `repetitions = 1`, `interval = 1`, next review one
day out, and the easiness field unchanged; and, for any item whose
learning step respects the `[1, N]` invariant, this graduation is the
only transition from the learning phase to the adaptive phase. -/
theorem submit_rating_graduation (now : ℚ) (ts : ℕ) :
    (∀ s : CardState, s.learning_step = (LEARNING_STEPS.length : ℤ) →
       submit_rating s 3 now ts = some
         { s with learning_step := 0, repetitions := 1, interval := 1,
                  next_review := get_next_review now ts 0 1 }) ∧
    (∀ (s s' : CardState) (rating : ℤ), 1 ≤ s.learning_step →
       s.learning_step ≤ (LEARNING_STEPS.length : ℤ) →
       submit_rating s rating now ts = some s' → s'.learning_step = 0 →
       s.learning_step = (LEARNING_STEPS.length : ℤ) ∧
       s' = { s with learning_step := 0, repetitions := 1, interval := 1,
                     next_review := get_next_review now ts 0 1 }) := by
  constructor
  · intro s hs
    exact submit_rating_eq_learning_graduate s 3 now ts
      (by rw [hs]; norm_num [LEARNING_STEPS]) (by decide) (by decide)
      (le_of_eq hs.symm)
  · intro s s' rating h1 h2 h hs'
    by_cases hr1 : rating = 1
    · subst hr1
      rw [submit_rating_eq_learning_forgot s now ts (by omega)] at h
      obtain rfl := Option.some.inj h
      simp at hs'
    · by_cases hr2 : rating = 2
      · subst hr2
        have hidx : (s.learning_step - 1).toNat < 3 := by
          simp [LEARNING_STEPS] at h2
          omega
        obtain ⟨m, hm⟩ := LEARNING_STEPS_get?_isSome _ hidx
        rw [submit_rating_eq_learning_hard s now ts m (by omega) hm] at h
        obtain rfl := Option.some.inj h
        simp at hs'
        omega
      · by_cases hlen : (LEARNING_STEPS.length : ℤ) ≤ s.learning_step
        · refine ⟨le_antisymm h2 hlen, ?_⟩
          rw [submit_rating_eq_learning_graduate s rating now ts (by omega) hr1 hr2 hlen] at h
          exact (Option.some.inj h).symm
        · have hidx : (s.learning_step + 1 - 1).toNat < 3 := by
            simp [LEARNING_STEPS] at hlen
            omega
          obtain ⟨m, hm⟩ := LEARNING_STEPS_get?_isSome _ hidx
          rw [submit_rating_eq_learning_advance s rating now ts m (by omega) hr1 hr2 hlen hm] at h
          obtain rfl := Option.some.inj h
          simp at hs'
          omega

/-- Witness for C3: an item at step 3 with easiness 2 and 7 repetitions
graduates to `(step 0, reps 1, interval 1)` with easiness untouched. -/
theorem submit_rating_graduation_witness :
    submit_rating ⟨3, 7, 20, 2, 0⟩ 3 0 1 = some ⟨0, 1, 1, 2, 86400⟩ := by
  have h := (submit_rating_graduation 0 1).1 ⟨3, 7, 20, 2, 0⟩
    (by norm_num [LEARNING_STEPS])
  rw [h]
  norm_num [get_next_review]

/-- C4: a `Forgot` rating (quality 0) on an adaptive item lapses it back
to learning: `learning_step = 1`, `repetitions = 0`, `interval = 1`, the
quality-adjusted (clamped) easiness is stored, and the next review is one
first-learning-step duration (`LEARNING_STEPS[0]` = 1 minute) away. -/
theorem submit_rating_adaptive_forgot (s : CardState) (now : ℚ) (ts : ℕ)
    (h0 : s.learning_step = 0) :
    submit_rating s 1 now ts = some
      { s with learning_step := 1, repetitions := 0, interval := 1,
               easiness_factor := sm2_new_ef s.easiness_factor 0,
               next_review := get_next_review now ts 1 0 } :=
  submit_rating_eq_adaptive_lapse s 1 0 now ts (by omega) rfl (by omega)

/-- Witness for C4: a `Forgot` on the adaptive item
`(reps 4, interval 20, ef 2.5)` yields `(step 1, reps 0, interval 1)`
with easiness `2.5 - 0.8 = 1.7` and the next review one minute out. -/
theorem submit_rating_adaptive_forgot_witness :
    submit_rating ⟨0, 4, 20, 5/2, 0⟩ 1 0 1 = some ⟨1, 0, 1, 17/10, 60⟩ := by
  rw [submit_rating_adaptive_forgot ⟨0, 4, 20, 5/2, 0⟩ 0 1 rfl]
  norm_num [sm2_new_ef, get_next_review]

/-- C5: for a learning-phase item with step in `[1, N]`: `Forgot` resets
to step 1 (due one `LEARNING_STEPS[0]` minute out), `Hard` repeats the
current step (due `LEARNING_STEPS[learning_step - 1]` minutes out), and
`Easy` below the last step advances one step (due the new step's
duration out).  Repetitions, interval and easiness are untouched. -/
theorem submit_rating_learning_transitions (s : CardState) (now : ℚ) (ts : ℕ)
    (h1 : 1 ≤ s.learning_step)
    (_h2 : s.learning_step ≤ (LEARNING_STEPS.length : ℤ)) :
    (submit_rating s 1 now ts = some
       { s with learning_step := 1,
                next_review := get_next_review now ts 1 0 }) ∧
    (∀ m : ℤ, LEARNING_STEPS.get? (s.learning_step - 1).toNat = some m →
       submit_rating s 2 now ts = some
         { s with learning_step := s.learning_step,
                  next_review := get_next_review now ts m 0 }) ∧
    (s.learning_step < (LEARNING_STEPS.length : ℤ) →
       ∀ m : ℤ, LEARNING_STEPS.get? s.learning_step.toNat = some m →
         submit_rating s 3 now ts = some
           { s with learning_step := s.learning_step + 1,
                    next_review := get_next_review now ts m 0 }) := by
  refine ⟨submit_rating_eq_learning_forgot s now ts (by omega), ?_, ?_⟩
  · intro m hm
    exact submit_rating_eq_learning_hard s now ts m (by omega) hm
  · intro hlt m hm
    refine submit_rating_eq_learning_advance s 3 now ts m (by omega)
      (by decide) (by decide) (by omega) ?_
    have he : (s.learning_step + 1 - 1).toNat = s.learning_step.toNat := by omega
    rw [he]
    exact hm

/-- Witness for C5: from step 1, `Forgot` and `Hard` both stay at step 1
(due 1 minute out) and `Easy` advances to step 2 (due 10 minutes out). -/
theorem submit_rating_learning_transitions_witness :
    submit_rating ⟨1, 0, 1, 5/2, 0⟩ 1 0 1 = some ⟨1, 0, 1, 5/2, 60⟩ ∧
    submit_rating ⟨1, 0, 1, 5/2, 0⟩ 2 0 1 = some ⟨1, 0, 1, 5/2, 60⟩ ∧
    submit_rating ⟨1, 0, 1, 5/2, 0⟩ 3 0 1 = some ⟨2, 0, 1, 5/2, 600⟩ := by
  have h := submit_rating_learning_transitions ⟨1, 0, 1, 5/2, 0⟩ 0 1
    (by norm_num) (by norm_num [LEARNING_STEPS])
  refine ⟨?_, ?_, ?_⟩
  · rw [h.1]
    norm_num [get_next_review]
  · rw [h.2.1 1 (by simp [LEARNING_STEPS])]
    norm_num [get_next_review]
  · rw [h.2.2 (by norm_num [LEARNING_STEPS]) 10 (by simp [LEARNING_STEPS])]
    norm_num [get_next_review]

/-- Counterexample to C6: in the learning phase the out-of-range rating
4 is not rejected — `submit_rating` silently treats it as `Easy` (the
bare `else` branch), advancing the item from step 1 to step 2. -/
theorem submit_rating_rating4_coerced :
    submit_rating ⟨1, 0, 1, 5/2, 0⟩ 4 0 1 ≠ none ∧
    submit_rating ⟨1, 0, 1, 5/2, 0⟩ 4 0 1 = submit_rating ⟨1, 0, 1, 5/2, 0⟩ 3 0 1 := by
  have h4 : submit_rating ⟨1, 0, 1, 5/2, 0⟩ 4 0 1 = some ⟨2, 0, 1, 5/2, 600⟩ := by
    rw [submit_rating_eq_learning_advance ⟨1, 0, 1, 5/2, 0⟩ 4 0 1 10 (by norm_num)
        (by decide) (by decide) (by norm_num [LEARNING_STEPS]) (by simp [LEARNING_STEPS])]
    norm_num [get_next_review]
  have h3 : submit_rating ⟨1, 0, 1, 5/2, 0⟩ 3 0 1 = some ⟨2, 0, 1, 5/2, 600⟩ := by
    rw [submit_rating_eq_learning_advance ⟨1, 0, 1, 5/2, 0⟩ 3 0 1 10 (by norm_num)
        (by decide) (by decide) (by norm_num [LEARNING_STEPS]) (by simp [LEARNING_STEPS])]
    norm_num [get_next_review]
  rw [h4, h3]
  exact ⟨by simp, rfl⟩

/-- C6 as amended: only the adaptive phase rejects an out-of-range
rating (the `quality_map[rating]` lookup raises `KeyError`); in the
learning phase any rating other than 1 and 2 falls into the `else`
branch and is handled exactly like rating 3 (`Easy`). -/
theorem submit_rating_invalid_rating (s : CardState) (rating : ℤ) (now : ℚ)
    (ts : ℕ) (hr : rating ≠ 1 ∧ rating ≠ 2 ∧ rating ≠ 3) :
    (s.learning_step ≤ 0 → submit_rating s rating now ts = none) ∧
    (0 < s.learning_step →
       submit_rating s rating now ts = submit_rating s 3 now ts) := by
  obtain ⟨h1, h2, h3⟩ := hr
  constructor
  · intro hstep
    refine submit_rating_eq_adaptive_none s rating now ts (by omega) ?_
    unfold quality_map
    rw [if_neg h1, if_neg h2, if_neg h3]
  · intro hstep
    unfold submit_rating
    rw [if_pos hstep, if_pos hstep, if_neg h1, if_neg h2,
        if_neg (by decide : ¬ (3:ℤ) = 1), if_neg (by decide : ¬ (3:ℤ) = 2)]

/-- Witness for C6 (amended): rating 4 on an adaptive item raises
(`none`). -/
theorem submit_rating_invalid_rating_witness :
    submit_rating ⟨0, 0, 1, 5/2, 0⟩ 4 0 1 = none :=
  (submit_rating_invalid_rating ⟨0, 0, 1, 5/2, 0⟩ 4 0 1
    (by norm_num)).1 (by norm_num)

/-- Counterexample to C7: in accelerated mode (scale 1000) a 1-minute
learning step becomes 0.06 s, and the whole-second `strftime` truncation
makes the stored due time land at or before `now` — here `now = 0.5` s
past an epoch second and the stored timestamp is that epoch second
itself, so the due time is not strictly in the future. -/
theorem submit_rating_due_not_future_test_mode :
    submit_rating ⟨1, 0, 1, 5/2, 0⟩ 2 (1/2) 1000 = some ⟨1, 0, 1, 5/2, 0⟩ ∧
    ¬ ((1/2 : ℚ) < (((⟨1, 0, 1, 5/2, 0⟩ : CardState).next_review : ℤ) : ℚ)) := by
  constructor
  · simp [submit_rating, LEARNING_STEPS, get_next_review]
    norm_num
  · norm_num

/-- C7 as amended: in real mode (scale 1) the stored next-due timestamp
is strictly later than the clock's `now` for every rating and every
state satisfying the documented `intervalDays >= 1` invariant; in
accelerated mode the pre-truncation due time is strictly later but the
stored whole-second timestamp can be at or before `now`. -/
theorem submit_rating_due_future_real_mode (s : CardState) (rating : ℤ)
    (now : ℚ) (s' : CardState) (hi : 1 ≤ s.interval)
    (h : submit_rating s rating now 1 = some s') :
    now < (s'.next_review : ℚ) := by
  by_cases hstep : 0 < s.learning_step
  · by_cases hr1 : rating = 1
    · subst hr1
      rw [submit_rating_eq_learning_forgot s now 1 hstep] at h
      obtain rfl := Option.some.inj h
      exact get_next_review_scale_one_lt now 1 0 (by omega)
    · by_cases hr2 : rating = 2
      · subst hr2
        cases hm : LEARNING_STEPS.get? (s.learning_step - 1).toNat with
        | none =>
          rw [submit_rating_eq_learning_hard_none s now 1 hstep hm] at h
          cases h
        | some m =>
          rw [submit_rating_eq_learning_hard s now 1 m hstep hm] at h
          obtain rfl := Option.some.inj h
          have := LEARNING_STEPS_pos _ _ hm
          exact get_next_review_scale_one_lt now m 0 (by omega)
      · by_cases hlen : (LEARNING_STEPS.length : ℤ) ≤ s.learning_step
        · rw [submit_rating_eq_learning_graduate s rating now 1 hstep hr1 hr2 hlen] at h
          obtain rfl := Option.some.inj h
          exact get_next_review_scale_one_lt now 0 1 (by omega)
        · have hidx : (s.learning_step + 1 - 1).toNat < 3 := by
            simp [LEARNING_STEPS] at hlen
            omega
          obtain ⟨m, hm⟩ := LEARNING_STEPS_get?_isSome _ hidx
          rw [submit_rating_eq_learning_advance s rating now 1 m hstep hr1 hr2 hlen hm] at h
          obtain rfl := Option.some.inj h
          have := LEARNING_STEPS_pos _ _ hm
          exact get_next_review_scale_one_lt now m 0 (by omega)
  · cases hq : quality_map rating with
    | none =>
      rw [submit_rating_eq_adaptive_none s rating now 1 hstep hq] at h
      cases h
    | some q =>
      by_cases h3 : q < 3
      · rw [submit_rating_eq_adaptive_lapse s rating q now 1 hstep hq h3] at h
        obtain rfl := Option.some.inj h
        exact get_next_review_scale_one_lt now 1 0 (by omega)
      · rw [submit_rating_eq_adaptive_success s rating q now 1 hstep hq h3] at h
        obtain rfl := Option.some.inj h
        have hd := calculate_sm2_interval_pos s.repetitions s.interval
          s.easiness_factor q hi
        exact get_next_review_scale_one_lt now 0 _ (by omega)

/-- Witness for C7 (amended): a `Forgot` at `now = 0` in real mode
schedules the next review at 60 s, strictly in the future. -/
theorem submit_rating_due_future_real_mode_witness :
    (0 : ℚ) < (((⟨1, 0, 1, 5/2, 60⟩ : CardState).next_review : ℤ) : ℚ) :=
  submit_rating_due_future_real_mode ⟨1, 0, 1, 5/2, 0⟩ 1 0 ⟨1, 0, 1, 5/2, 60⟩
    (by norm_num)
    (by simp [submit_rating, LEARNING_STEPS, get_next_review])

/-- C10: a learning-phase transition that does not graduate the item
(`Forgot`, `Hard`, or any `Easy`-like rating below the last step) leaves
`repetitions`, `interval` and `easiness_factor` untouched. -/
theorem submit_rating_learning_frame (s : CardState) (rating : ℤ) (now : ℚ)
    (ts : ℕ) (s' : CardState) (h1 : 1 ≤ s.learning_step)
    (hng : rating = 1 ∨ rating = 2 ∨
           s.learning_step < (LEARNING_STEPS.length : ℤ))
    (h : submit_rating s rating now ts = some s') :
    s'.repetitions = s.repetitions ∧ s'.interval = s.interval ∧
    s'.easiness_factor = s.easiness_factor := by
  by_cases hr1 : rating = 1
  · subst hr1
    rw [submit_rating_eq_learning_forgot s now ts (by omega)] at h
    obtain rfl := Option.some.inj h
    exact ⟨rfl, rfl, rfl⟩
  · by_cases hr2 : rating = 2
    · subst hr2
      cases hm : LEARNING_STEPS.get? (s.learning_step - 1).toNat with
      | none =>
        rw [submit_rating_eq_learning_hard_none s now ts (by omega) hm] at h
        cases h
      | some m =>
        rw [submit_rating_eq_learning_hard s now ts m (by omega) hm] at h
        obtain rfl := Option.some.inj h
        exact ⟨rfl, rfl, rfl⟩
    · have hlt : s.learning_step < (LEARNING_STEPS.length : ℤ) := by
        rcases hng with hng | hng | hng
        · exact absurd hng hr1
        · exact absurd hng hr2
        · exact hng
      have hidx : (s.learning_step + 1 - 1).toNat < 3 := by
        simp [LEARNING_STEPS] at hlt
        omega
      obtain ⟨m, hm⟩ := LEARNING_STEPS_get?_isSome _ hidx
      rw [submit_rating_eq_learning_advance s rating now ts m (by omega) hr1 hr2
          (by omega) hm] at h
      obtain rfl := Option.some.inj h
      exact ⟨rfl, rfl, rfl⟩

/-- Witness for C10: a `Hard` at step 1 on `(reps 5, interval 20, ef 2)`
changes only the step and due time. -/
theorem submit_rating_learning_frame_witness :
    (⟨1, 5, 20, 2, 60⟩ : CardState).repetitions =
      (⟨1, 5, 20, 2, 0⟩ : CardState).repetitions ∧
    (⟨1, 5, 20, 2, 60⟩ : CardState).interval =
      (⟨1, 5, 20, 2, 0⟩ : CardState).interval ∧
    (⟨1, 5, 20, 2, 60⟩ : CardState).easiness_factor =
      (⟨1, 5, 20, 2, 0⟩ : CardState).easiness_factor :=
  submit_rating_learning_frame ⟨1, 5, 20, 2, 0⟩ 2 0 1 ⟨1, 5, 20, 2, 60⟩
    (by norm_num) (Or.inr (Or.inl rfl))
    (by simp [submit_rating, LEARNING_STEPS, get_next_review])
